import Mathlib

set_option maxHeartbeats 1000000

/-
Formal model of the game server in src/main.rs (flooyd/game-server).

The server keeps two shared hash maps: `player_map` from the peer address
string to a `PlayerMapPlayer` record, and `clients` from the peer address
string to the unbounded mpsc sender of that connection. Messages are
serialized with serde_json. We model:

  - f32 values by their 32-bit patterns (as produced by f32.to_bits), so
    equality of models is exactly the bitwise equality that the hand-written
    PartialEq of PlayerMapPlayer uses;
  - serde_json at the level of JSON values: a finite f32 prints as a decimal
    that parses back to the same value (serde_json uses an exact shortest
    representation), so a JSON number is carried as the bit pattern of the
    f32 it denotes; a non-finite f32 (NaN or an infinity) is serialized by
    serde_json as JSON null, and deserializing null as f32 fails;
  - a Uuid as its 128-bit value; serde serializes it as the hyphenated
    lowercase hex string of uuid::Uuid::to_string, and parses that back;
  - the two HashMaps as association lists with the usual lookup, insert
    (replace on an existing key), update-in-place and remove operations;
  - an UnboundedSender as the list of messages delivered so far plus a flag
    recording whether the receiving half is still alive: send on a dead
    channel returns Err, which broadcast_message logs and skips;
  - a panic (an .unwrap() on None or Err) as the result none of a step
    function returning Option.
-/

/-- An f32 value, represented by its 32-bit pattern (f32.to_bits). -/
abbrev F32Bits := Nat

/-- Whether the bit pattern denotes a finite float: the 8-bit exponent field
(bits 23..30) is not all ones. NaN and the infinities have exponent 0xFF. -/
def f32IsFinite (b : F32Bits) : Bool := (b / 2 ^ 23) % 2 ^ 8 != 255

/-- A 128-bit uuid::Uuid, modelled by its integer value. -/
structure Uuid where
  val : Nat
  deriving DecidableEq

/-- The JSON values produced and consumed by serde_json, abstracted so that a
number is carried as the bit pattern of the finite f32 it denotes exactly. -/
inductive Json where
  | null
  | str (s : String)
  | num (bits : F32Bits)
  | arr (items : List Json)
  | obj (fields : List (String × Json))

/-- struct PlayerMapPlayer of src/main.rs. The [f32; 4] color array is
modelled by its four components. Structural equality on this model is
bitwise on every float field, exactly as the hand-written PartialEq
(which compares all float fields via to_bits). -/
structure PlayerMapPlayer where
  player_id : Uuid
  x : F32Bits
  y : F32Bits
  width : F32Bits
  height : F32Bits
  color0 : F32Bits
  color1 : F32Bits
  color2 : F32Bits
  color3 : F32Bits
  deriving DecidableEq

/-- enum Message of src/main.rs. The HashMap<String, PlayerMapPlayer> payload
of PlayerMap is modelled as an association list. -/
inductive Message where
  | move (player_id : Uuid) (x y : F32Bits)
  | playerMap (player_map : List (String × PlayerMapPlayer))
  | disconnect (player_id : Uuid)
  | connect (player_id : Uuid)
  | otherPlayerConnected (player : PlayerMapPlayer)
  | getPlayerMap
  deriving DecidableEq

/- ===== Hexadecimal digits, for the uuid string form ===== -/

/-- The `w` low hex digits of `v`, most significant first. -/
def toHexDigits : Nat → Nat → List Nat
  | 0, _ => []
  | w + 1, v => toHexDigits w (v / 16) ++ [v % 16]

/-- Value of a most-significant-first hex digit list. -/
def fromHexDigits (ds : List Nat) : Nat := ds.foldl (fun a d => 16 * a + d) 0

/-- Lowercase hex digit character, as printed by uuid::Uuid. -/
def nibbleChar (d : Nat) : Char :=
  if d < 10 then Char.ofNat (48 + d) else Char.ofNat (87 + d)

/-- Value of a hex digit character; the uuid parser accepts both cases. -/
def hexVal (c : Char) : Option Nat :=
  if 48 ≤ c.toNat ∧ c.toNat ≤ 57 then some (c.toNat - 48)
  else if 97 ≤ c.toNat ∧ c.toNat ≤ 102 then some (c.toNat - 87)
  else if 65 ≤ c.toNat ∧ c.toNat ≤ 70 then some (c.toNat - 55)
  else none

/-- Parse a list of hex digit characters; fails on any non-hex character. -/
def parseHexList : List Char → Option (List Nat)
  | [] => some []
  | c :: cs =>
    match hexVal c, parseHexList cs with
    | some d, some ds => some (d :: ds)
    | _, _ => none

/-- The 32 hex digit characters of a uuid, most significant first. -/
def uuidHexChars (u : Uuid) : List Char := (toHexDigits 32 u.val).map nibbleChar

/-- The 36 characters of the hyphenated 8-4-4-4-12 uuid display form. -/
def uuidChars (u : Uuid) : List Char :=
  (uuidHexChars u).take 8 ++ '-' :: (((uuidHexChars u).drop 8).take 4
    ++ '-' :: (((uuidHexChars u).drop 12).take 4
    ++ '-' :: (((uuidHexChars u).drop 16).take 4 ++ '-' :: (uuidHexChars u).drop 20)))

/-- uuid::Uuid::to_string, the hyphenated lowercase hex form. -/
def uuidToString (u : Uuid) : String := String.mk (uuidChars u)

/-- Parse a uuid string: 32 hex digits besides the hyphens. -/
def parseUuid (s : String) : Option Uuid :=
  let cs := s.toList.filter (fun c => c != '-')
  if cs.length = 32 then (parseHexList cs).map (fun ds => ⟨fromHexDigits ds⟩)
  else none

/- ===== serde_json encoding of Message (serde_json::to_string) ===== -/

/-- serde_json serialization of one f32: a finite value prints as a decimal
denoting it exactly; NaN and the infinities print as null. -/
def encodeF32 (b : F32Bits) : Json :=
  if f32IsFinite b then Json.num b else Json.null

/-- serde serialization of a Uuid: its hyphenated string form. -/
def encodeUuid (u : Uuid) : Json := Json.str (uuidToString u)

/-- serde serialization of struct PlayerMapPlayer (derived Serialize). -/
def encodePlayer (p : PlayerMapPlayer) : Json :=
  Json.obj [("player_id", encodeUuid p.player_id),
            ("x", encodeF32 p.x), ("y", encodeF32 p.y),
            ("width", encodeF32 p.width), ("height", encodeF32 p.height),
            ("color", Json.arr [encodeF32 p.color0, encodeF32 p.color1,
                                encodeF32 p.color2, encodeF32 p.color3])]

/-- serde serialization of the HashMap<String, PlayerMapPlayer> payload. -/
def encodeEntries : List (String × PlayerMapPlayer) → List (String × Json)
  | [] => []
  | (k, p) :: rest => (k, encodePlayer p) :: encodeEntries rest

/-- serde serialization of enum Message (derived Serialize, externally
tagged: a data variant is a one-field object named after the variant, the
unit variant GetPlayerMap is the bare string "GetPlayerMap"). -/
def encodeMessage : Message → Json
  | .move u x y =>
      Json.obj [("Move", Json.obj [("player_id", encodeUuid u),
                                   ("x", encodeF32 x), ("y", encodeF32 y)])]
  | .playerMap entries =>
      Json.obj [("PlayerMap", Json.obj [("player_map", Json.obj (encodeEntries entries))])]
  | .disconnect u =>
      Json.obj [("Disconnect", Json.obj [("player_id", encodeUuid u)])]
  | .connect u =>
      Json.obj [("Connect", Json.obj [("player_id", encodeUuid u)])]
  | .otherPlayerConnected p =>
      Json.obj [("OtherPlayerConnected", Json.obj [("player", encodePlayer p)])]
  | .getPlayerMap => Json.str "GetPlayerMap"

/- ===== serde_json decoding of Message (serde_json::from_str) ===== -/

/-- Association-list lookup, the model of HashMap::get; also used to read a
field of a decoded JSON object by name, as the serde derive does. -/
def hmLookup {α : Type} (k : String) : List (String × α) → Option α
  | [] => none
  | (k', v) :: rest => if k' = k then some v else hmLookup k rest

/-- serde_json deserialization of one f32. A JSON number parses to the f32 it
denotes; null (and anything else that is not a number) is rejected, which is
why a NaN does not survive a round trip. -/
def decodeF32 : Json → Option F32Bits
  | .num b => some b
  | _ => none

/-- serde deserialization of a Uuid from its JSON string form. -/
def decodeUuid : Json → Option Uuid
  | .str s => parseUuid s
  | _ => none

/-- serde deserialization of struct PlayerMapPlayer: reads each named field,
and the color array must have exactly four elements. -/
def decodePlayer : Json → Option PlayerMapPlayer
  | .obj fields =>
    match hmLookup "player_id" fields, hmLookup "x" fields, hmLookup "y" fields,
          hmLookup "width" fields, hmLookup "height" fields, hmLookup "color" fields with
    | some pj, some xj, some yj, some wj, some hj, some (Json.arr [c0j, c1j, c2j, c3j]) =>
      match decodeUuid pj, decodeF32 xj, decodeF32 yj, decodeF32 wj, decodeF32 hj,
            decodeF32 c0j, decodeF32 c1j, decodeF32 c2j, decodeF32 c3j with
      | some u, some x, some y, some w, some h, some c0, some c1, some c2, some c3 =>
        some ⟨u, x, y, w, h, c0, c1, c2, c3⟩
      | _, _, _, _, _, _, _, _, _ => none
    | _, _, _, _, _, _ => none
  | _ => none

/-- serde deserialization of the player map payload, entry by entry. -/
def decodeEntries : List (String × Json) → Option (List (String × PlayerMapPlayer))
  | [] => some []
  | (k, j) :: rest =>
    match decodePlayer j, decodeEntries rest with
    | some p, some ps => some ((k, p) :: ps)
    | _, _ => none

/-- serde deserialization of enum Message (externally tagged). -/
def decodeMessage : Json → Option Message
  | .str s => if s = "GetPlayerMap" then some Message.getPlayerMap else none
  | .obj [(tag, body)] =>
    if tag = "Move" then
      match body with
      | .obj fields =>
        match hmLookup "player_id" fields, hmLookup "x" fields, hmLookup "y" fields with
        | some pj, some xj, some yj =>
          match decodeUuid pj, decodeF32 xj, decodeF32 yj with
          | some u, some x, some y => some (Message.move u x y)
          | _, _, _ => none
        | _, _, _ => none
      | _ => none
    else if tag = "PlayerMap" then
      match body with
      | .obj fields =>
        match hmLookup "player_map" fields with
        | some (Json.obj entries) => (decodeEntries entries).map Message.playerMap
        | _ => none
      | _ => none
    else if tag = "Disconnect" then
      match body with
      | .obj fields =>
        match hmLookup "player_id" fields with
        | some pj => (decodeUuid pj).map Message.disconnect
        | _ => none
      | _ => none
    else if tag = "Connect" then
      match body with
      | .obj fields =>
        match hmLookup "player_id" fields with
        | some pj => (decodeUuid pj).map Message.connect
        | _ => none
      | _ => none
    else if tag = "OtherPlayerConnected" then
      match body with
      | .obj fields =>
        match hmLookup "player" fields with
        | some pj => (decodePlayer pj).map Message.otherPlayerConnected
        | _ => none
      | _ => none
    else none
  | _ => none

/- ===== Well-formedness: the payloads a real Rust value can carry ===== -/

/-- All float fields of the player are finite and the uuid fits in 128 bits
(the Rust Uuid type is exactly 128 bits wide). -/
def playerWF (p : PlayerMapPlayer) : Bool :=
  decide (p.player_id.val < 2 ^ 128) && f32IsFinite p.x && f32IsFinite p.y &&
  f32IsFinite p.width && f32IsFinite p.height && f32IsFinite p.color0 &&
  f32IsFinite p.color1 && f32IsFinite p.color2 && f32IsFinite p.color3

/-- Every f32 field of the message is finite and every uuid is 128-bit. -/
def msgWF : Message → Bool
  | .move u x y => decide (u.val < 2 ^ 128) && f32IsFinite x && f32IsFinite y
  | .playerMap entries => entries.all (fun e => playerWF e.2)
  | .disconnect u => decide (u.val < 2 ^ 128)
  | .connect u => decide (u.val < 2 ^ 128)
  | .otherPlayerConnected p => playerWF p
  | .getPlayerMap => true

/- ===== The shared HashMaps, modelled as association lists ===== -/

/-- HashMap::insert: replaces the value at an existing key, else adds the
entry. Never fails and performs no duplicate-key check, exactly as
player_map.insert and clients.insert in the accept loop of main. -/
def hmInsert {α : Type} (k : String) (v : α) : List (String × α) → List (String × α)
  | [] => [(k, v)]
  | (k', v') :: rest => if k' = k then (k, v) :: rest else (k', v') :: hmInsert k v rest

/-- In-place mutation of the entry at an existing key (the get_mut write in
the Move branch); a missing key leaves the list unchanged, but the caller
only reaches this after a successful lookup. -/
def hmUpdate {α : Type} (k : String) (v : α) : List (String × α) → List (String × α)
  | [] => []
  | (k', v') :: rest => if k' = k then (k, v) :: rest else (k', v') :: hmUpdate k v rest

/-- HashMap::remove: returns the removed value, if any, and the remaining
map; removing an absent key is a no-op returning none. -/
def hmRemove {α : Type} (k : String) : List (String × α) → Option α × List (String × α)
  | [] => (none, [])
  | (k', v') :: rest =>
    if k' = k then (some v', rest)
    else
      let r := hmRemove k rest
      (r.1, (k', v') :: r.2)

/- ===== Outbound queues and broadcast_message ===== -/

/-- The model of one mpsc::UnboundedSender: the messages delivered so far,
and whether the receiving half (the write task) is still alive. -/
structure ClientQueue where
  msgs : List Message
  isOpen : Bool
  deriving DecidableEq

/-- UnboundedSender::send: enqueues when the receiver is alive; on a dead
channel it returns Err, which every caller merely logs, so the model leaves
the queue unchanged. -/
def sendMsg (q : ClientQueue) (m : Message) : ClientQueue :=
  if q.isOpen then { q with msgs := q.msgs ++ [m] } else q

/-- broadcast_message of src/main.rs: iterate every registered client, skip
the entry whose key equals the sender address, send to each of the others;
a failed send is logged and skipped without affecting the rest. -/
def broadcast_message (clients : List (String × ClientQueue)) (sender_addr : String)
    (message : Message) : List (String × ClientQueue) :=
  clients.map (fun e => if e.1 ≠ sender_addr then (e.1, sendMsg e.2 message) else e)

/- ===== The shared server state and the read-task dispatch ===== -/

/-- The two Arc<Mutex<HashMap>> of main: player_map and clients. -/
structure ServerState where
  playerMap : List (String × PlayerMapPlayer)
  clients : List (String × ClientQueue)
  deriving DecidableEq

/-- One iteration of the read task of handle_client after a nonempty read:
the serde_json::from_str result is given as an Option (none for Err), and the
overall result is none exactly when the Rust code panics on an .unwrap().

  - a failed parse hits `serde_json::from_str(&message_str).unwrap()`;
  - GetPlayerMap clones player_map, then `clients.get(&addr).unwrap()` and
    sends the snapshot to the own queue (a failed send is only logged);
  - Move looks up the own entry with `player_map.get_mut(&addr).unwrap()`,
    writes x and y in place, then broadcasts Move{player_id, x, y} with the
    player_id taken verbatim from the decoded client message;
  - every other variant is ignored. -/
def readTaskStep (st : ServerState) (addr : String) (decoded : Option Message) :
    Option ServerState :=
  match decoded with
  | none => none
  | some msg =>
    match msg with
    | .getPlayerMap =>
      match hmLookup addr st.clients with
      | none => none
      | some q =>
        some { st with clients := hmUpdate addr (sendMsg q (Message.playerMap st.playerMap)) st.clients }
    | .move pid x y =>
      match hmLookup addr st.playerMap with
      | none => none
      | some p =>
        some { playerMap := hmUpdate addr { p with x := x, y := y } st.playerMap,
               clients := broadcast_message st.clients addr (Message.move pid x y) }
    | _ => some st

/- ===== Event traces of the accept path and of teardown ===== -/

/-- The externally visible steps of the accept path and of teardown, in the
order the source performs them. -/
inductive Ev where
  | registryInserted
  | clientsInserted
  | connectSent
  | joinBroadcastQueued
  | clientsRemoved
  | registryRemoved
  | disconnectBroadcastQueued
  deriving DecidableEq

/-- The body of the accept loop of main for one new connection (lines 72 to
119): insert the new player into player_map, create the channel and insert
its sender into clients, send Connect{player_id} on the own channel, then
broadcast OtherPlayerConnected{player} to everyone else. Returns the new
state and the events in program order. -/
def acceptSeq (addr : String) (p : PlayerMapPlayer) (st : ServerState) :
    ServerState × List Ev :=
  let pm1 := hmInsert addr p st.playerMap
  let cl1 := hmInsert addr ⟨[], true⟩ st.clients
  let cl2 :=
    match hmLookup addr cl1 with
    | some q => hmUpdate addr (sendMsg q (Message.connect p.player_id)) cl1
    | none => cl1
  let cl3 := broadcast_message cl2 addr (Message.otherPlayerConnected p)
  (⟨pm1, cl3⟩,
   [Ev.registryInserted, Ev.clientsInserted, Ev.connectSent, Ev.joinBroadcastQueued])

/-- The teardown tail of handle_client (lines 214 to 229): read the
player_id of the own entry with `player_map.get(&addr).unwrap()` (none, that
is a panic, when the entry is gone), remove the entry from clients, remove it
from player_map, then broadcast Disconnect{player_id} to the remaining
clients. Returns the new state and the events in program order. -/
def teardown (addr : String) (st : ServerState) : Option (ServerState × List Ev) :=
  match hmLookup addr st.playerMap with
  | none => none
  | some p =>
    let cl1 := (hmRemove addr st.clients).2
    let pm1 := (hmRemove addr st.playerMap).2
    let cl2 := broadcast_message cl1 addr (Message.disconnect p.player_id)
    some (⟨pm1, cl2⟩,
      [Ev.clientsRemoved, Ev.registryRemoved, Ev.disconnectBroadcastQueued])

/- ===== Interleaving model for the newcomer Connect ordering ===== -/

/-- The three steps of the accept path that touch the newcomer queue or its
reachability, in program order: insert the sender into clients (line 95),
send Connect on the own channel (line 99), broadcast the own join to the
others (line 102). -/
inductive AcceptAct where
  | register
  | sendConnect
  | broadcastJoin
  deriving DecidableEq

/-- An atomic action in the concurrent history of the newcomer queue: a step
of the accept path, or a broadcast performed concurrently by another
connection task (a Move relay or a Disconnect announcement), which reaches
the newcomer exactly when its sender is already registered in clients. -/
inductive Act where
  | acc (a : AcceptAct)
  | envBroadcast
  deriving DecidableEq

/-- The newcomer-side state: whether its sender is already in the clients
map, and the messages delivered to its queue so far. -/
structure NewcomerState where
  registered : Bool
  queue : List Message
  deriving DecidableEq

/-- Effect of one atomic action on the newcomer state. Registering flips the
flag; sendConnect appends Connect (the tx handle is held directly, so this
needs no lookup); the join broadcast excludes the newcomer own key and so
leaves its queue untouched; a concurrent broadcast from another task reaches
the queue through the clients map, hence only when already registered. -/
def acceptStep (uid : Uuid) (envMsg : Message) (s : NewcomerState) : Act → NewcomerState
  | .acc .register => { s with registered := true }
  | .acc .sendConnect => { s with queue := s.queue ++ [Message.connect uid] }
  | .acc .broadcastJoin => s
  | .envBroadcast => if s.registered then { s with queue := s.queue ++ [envMsg] } else s

/-- Run a history from the initial state (unregistered, empty queue). -/
def runAccept (uid : Uuid) (envMsg : Message) (tr : List Act) : NewcomerState :=
  tr.foldl (acceptStep uid envMsg) ⟨false, []⟩

/-- Program order of the accept path steps in main. -/
def acceptProgram : List AcceptAct := [.register, .sendConnect, .broadcastJoin]

/-- Projection of a history to the accept-path steps it contains. -/
def projAccept : Act → Option AcceptAct
  | .acc a => some a
  | .envBroadcast => none

/-- A history is valid when the accept-path steps occur in it exactly in
program order; concurrent broadcasts may interleave anywhere. -/
def validTrace (tr : List Act) : Prop := tr.filterMap projAccept = acceptProgram

/- ===== Round-trip lemmas for the codec ===== -/

theorem toHexDigits_length (w : Nat) : ∀ v, (toHexDigits w v).length = w := by
  induction w with
  | zero => intro v; rfl
  | succ w ih => intro v; simp [toHexDigits, ih]

theorem toHexDigits_lt (w : Nat) : ∀ v, ∀ d ∈ toHexDigits w v, d < 16 := by
  induction w with
  | zero => intro v d hd; simp [toHexDigits] at hd
  | succ w ih =>
    intro v d hd
    simp only [toHexDigits, List.mem_append, List.mem_singleton] at hd
    rcases hd with hd | hd
    · exact ih _ d hd
    · subst hd; exact Nat.mod_lt _ (by norm_num)

theorem fromHexDigits_append (l : List Nat) (d : Nat) :
    fromHexDigits (l ++ [d]) = 16 * fromHexDigits l + d := by
  simp [fromHexDigits, List.foldl_append]

theorem fromHex_toHex (w : Nat) : ∀ v, v < 16 ^ w → fromHexDigits (toHexDigits w v) = v := by
  induction w with
  | zero =>
    intro v hv
    have : v = 0 := Nat.lt_one_iff.mp hv
    subst this; rfl
  | succ w ih =>
    intro v hv
    have hdiv : v / 16 < 16 ^ w := by
      apply Nat.div_lt_of_lt_mul
      rw [Nat.mul_comm, ← Nat.pow_succ]
      exact hv
    rw [toHexDigits, fromHexDigits_append, ih (v / 16) hdiv]
    exact Nat.div_add_mod v 16

theorem hexVal_nibbleChar (d : Nat) (h : d < 16) : hexVal (nibbleChar d) = some d := by
  interval_cases d <;> decide

theorem nibbleChar_ne_dash (d : Nat) (h : d < 16) : (nibbleChar d != '-') = true := by
  interval_cases d <;> decide

theorem parseHexList_map (l : List Nat) (h : ∀ d ∈ l, d < 16) :
    parseHexList (l.map nibbleChar) = some l := by
  induction l with
  | nil => rfl
  | cons d ds ih =>
    have h1 : hexVal (nibbleChar d) = some d := hexVal_nibbleChar d (h d (by simp))
    have h2 : parseHexList (ds.map nibbleChar) = some ds :=
      ih (fun x hx => h x (by simp [hx]))
    simp [parseHexList, h1, h2]

theorem uuidHexChars_ne_dash (u : Uuid) : ∀ c ∈ uuidHexChars u, (c != '-') = true := by
  intro c hc
  rcases List.mem_map.mp hc with ⟨d, hd, rfl⟩
  exact nibbleChar_ne_dash d (toHexDigits_lt 32 u.val d hd)

theorem segments_eq (ds : List Char) :
    ds.take 8 ++ ((ds.drop 8).take 4 ++ ((ds.drop 12).take 4
      ++ ((ds.drop 16).take 4 ++ ds.drop 20))) = ds := by
  have h20 : (ds.drop 16).take 4 ++ ds.drop 20 = ds.drop 16 := by
    simpa [List.drop_drop] using List.take_append_drop 4 (ds.drop 16)
  have h16 : (ds.drop 12).take 4 ++ ds.drop 16 = ds.drop 12 := by
    simpa [List.drop_drop] using List.take_append_drop 4 (ds.drop 12)
  have h12 : (ds.drop 8).take 4 ++ ds.drop 12 = ds.drop 8 := by
    simpa [List.drop_drop] using List.take_append_drop 4 (ds.drop 8)
  rw [h20, h16, h12, List.take_append_drop]

theorem filter_uuidChars (u : Uuid) :
    (uuidChars u).filter (fun c => c != '-') = uuidHexChars u := by
  have hseg : ∀ l : List Char, (∀ c ∈ l, (c != '-') = true) →
      l.filter (fun c => c != '-') = l := fun l h => List.filter_eq_self.mpr h
  have hall := uuidHexChars_ne_dash u
  have t8 := hseg ((uuidHexChars u).take 8)
    (fun c hc => hall c (List.mem_of_mem_take hc))
  have t12 := hseg (((uuidHexChars u).drop 8).take 4)
    (fun c hc => hall c (List.mem_of_mem_drop (List.mem_of_mem_take hc)))
  have t16 := hseg (((uuidHexChars u).drop 12).take 4)
    (fun c hc => hall c (List.mem_of_mem_drop (List.mem_of_mem_take hc)))
  have t20 := hseg (((uuidHexChars u).drop 16).take 4)
    (fun c hc => hall c (List.mem_of_mem_drop (List.mem_of_mem_take hc)))
  have tdrop := hseg ((uuidHexChars u).drop 20)
    (fun c hc => hall c (List.mem_of_mem_drop hc))
  rw [uuidChars, List.filter_append, List.filter_cons_of_neg (by decide),
    List.filter_append, List.filter_cons_of_neg (by decide),
    List.filter_append, List.filter_cons_of_neg (by decide),
    List.filter_append, List.filter_cons_of_neg (by decide),
    t8, t12, t16, t20, tdrop]
  exact segments_eq (uuidHexChars u)

theorem uuidHexChars_length (u : Uuid) : (uuidHexChars u).length = 32 := by
  simp [uuidHexChars, toHexDigits_length]

theorem parseUuid_uuidToString (u : Uuid) (h : u.val < 2 ^ 128) :
    parseUuid (uuidToString u) = some u := by
  have hlt : u.val < 16 ^ 32 := by
    have : (16 : Nat) ^ 32 = 2 ^ 128 := by norm_num
    omega
  have hlist : (uuidToString u).toList = uuidChars u := rfl
  rw [parseUuid, hlist, filter_uuidChars, uuidHexChars_length]
  simp only [if_pos rfl, uuidHexChars]
  rw [parseHexList_map _ (toHexDigits_lt 32 u.val)]
  simp [fromHex_toHex 32 u.val hlt]

theorem decodeF32_encodeF32 (b : F32Bits) (h : f32IsFinite b = true) :
    decodeF32 (encodeF32 b) = some b := by
  simp [encodeF32, decodeF32, h]

theorem decodeUuid_encodeUuid (u : Uuid) (h : u.val < 2 ^ 128) :
    decodeUuid (encodeUuid u) = some u := by
  simp [encodeUuid, decodeUuid, parseUuid_uuidToString u h]

theorem decodePlayer_encodePlayer (p : PlayerMapPlayer) (h : playerWF p = true) :
    decodePlayer (encodePlayer p) = some p := by
  simp only [playerWF, Bool.and_eq_true, decide_eq_true_eq] at h
  obtain ⟨⟨⟨⟨⟨⟨⟨⟨hid, hx⟩, hy⟩, hw⟩, hh⟩, h0⟩, h1⟩, h2⟩, h3⟩ := h
  simp [encodePlayer, decodePlayer, hmLookup, decodeUuid_encodeUuid p.player_id hid,
    decodeF32_encodeF32 _ hx, decodeF32_encodeF32 _ hy, decodeF32_encodeF32 _ hw,
    decodeF32_encodeF32 _ hh, decodeF32_encodeF32 _ h0, decodeF32_encodeF32 _ h1,
    decodeF32_encodeF32 _ h2, decodeF32_encodeF32 _ h3]

theorem decodeEntries_encodeEntries (l : List (String × PlayerMapPlayer))
    (h : l.all (fun e => playerWF e.2) = true) :
    decodeEntries (encodeEntries l) = some l := by
  induction l with
  | nil => rfl
  | cons e rest ih =>
    simp only [List.all_cons, Bool.and_eq_true] at h
    have h1 : decodePlayer (encodePlayer e.2) = some e.2 :=
      decodePlayer_encodePlayer e.2 h.1
    have h2 : decodeEntries (encodeEntries rest) = some rest := ih h.2
    simp [encodeEntries, decodeEntries, h1, h2]

/-- C1 (amended): for every Message all of whose f32 payloads are finite
(and whose uuids are 128-bit values, as the Rust Uuid type guarantees),
decoding the serde_json encoding yields the message back, equality being
bitwise on every float field. -/
theorem c1_decode_encode_roundtrip (m : Message) (h : msgWF m = true) :
    decodeMessage (encodeMessage m) = some m := by
  cases m with
  | move u x y =>
    simp only [msgWF, Bool.and_eq_true, decide_eq_true_eq] at h
    obtain ⟨⟨hid, hx⟩, hy⟩ := h
    simp [encodeMessage, decodeMessage, hmLookup, decodeUuid_encodeUuid u hid,
      decodeF32_encodeF32 _ hx, decodeF32_encodeF32 _ hy]
  | playerMap entries =>
    simp only [msgWF] at h
    simp [encodeMessage, decodeMessage, hmLookup, decodeEntries_encodeEntries entries h]
  | disconnect u =>
    simp only [msgWF, decide_eq_true_eq] at h
    simp [encodeMessage, decodeMessage, hmLookup, decodeUuid_encodeUuid u h]
  | connect u =>
    simp only [msgWF, decide_eq_true_eq] at h
    simp [encodeMessage, decodeMessage, hmLookup, decodeUuid_encodeUuid u h]
  | otherPlayerConnected p =>
    simp only [msgWF] at h
    simp [encodeMessage, decodeMessage, hmLookup, decodePlayer_encodePlayer p h]
  | getPlayerMap => rfl

/-- C1 witness: the amended round trip evaluated at the concrete message
Move with x = 1.0 (bits 0x3F800000) and y = 0.0. -/
theorem c1_decode_encode_roundtrip_witness :
    msgWF (Message.move ⟨1⟩ 0x3F800000 0) = true ∧
    decodeMessage (encodeMessage (Message.move ⟨1⟩ 0x3F800000 0)) =
      some (Message.move ⟨1⟩ 0x3F800000 0) :=
  ⟨by decide, c1_decode_encode_roundtrip (Message.move ⟨1⟩ 0x3F800000 0) (by decide)⟩

/-- C1 counterexample: for the Move message whose x is the NaN bit pattern
0x7FC00000, serde_json writes the x field as JSON null, and decoding fails,
so decode(encode(m)) is not m; the round-trip law does not include NaN. -/
theorem c1_counterexample :
    decodeMessage (encodeMessage (Message.move ⟨0⟩ 0x7FC00000 0)) = none ∧
    decodeMessage (encodeMessage (Message.move ⟨0⟩ 0x7FC00000 0)) ≠
      some (Message.move ⟨0⟩ 0x7FC00000 0) := by
  constructor
  · rfl
  · intro hcontra
    have hnone : decodeMessage (encodeMessage (Message.move ⟨0⟩ 0x7FC00000 0)) = none := rfl
    rw [hnone] at hcontra
    exact Option.noConfusion hcontra

/- ===== Lemmas about the map operations and broadcast_message ===== -/

theorem hmLookup_mapEntry {α β : Type} (f : String → α → β) (k : String)
    (l : List (String × α)) :
    hmLookup k (l.map (fun e => (e.1, f e.1 e.2))) = (hmLookup k l).map (f k) := by
  induction l with
  | nil => rfl
  | cons e rest ih =>
    obtain ⟨a, b⟩ := e
    by_cases h : a = k <;> simp [hmLookup, h, ih]

theorem broadcast_message_eq (clients : List (String × ClientQueue))
    (sender_addr : String) (message : Message) :
    broadcast_message clients sender_addr message =
      clients.map (fun e => (e.1, if e.1 ≠ sender_addr then sendMsg e.2 message else e.2)) := by
  unfold broadcast_message
  congr 1
  funext e
  by_cases h : e.1 ≠ sender_addr <;> simp [h]

theorem hmLookup_broadcast (clients : List (String × ClientQueue))
    (sender_addr : String) (message : Message) (addr : String) :
    hmLookup addr (broadcast_message clients sender_addr message) =
      (hmLookup addr clients).map
        (fun q => if addr ≠ sender_addr then sendMsg q message else q) := by
  rw [broadcast_message_eq]
  exact hmLookup_mapEntry (fun a q => if a ≠ sender_addr then sendMsg q message else q)
    addr clients

theorem hmLookup_hmUpdate_eq {α : Type} (k : String) (v : α) (l : List (String × α)) :
    hmLookup k (hmUpdate k v l) = (hmLookup k l).map (fun _ => v) := by
  induction l with
  | nil => rfl
  | cons e rest ih =>
    obtain ⟨a, b⟩ := e
    by_cases h : a = k <;> simp [hmUpdate, hmLookup, h, ih]

theorem hmLookup_hmUpdate_ne {α : Type} (k k' : String) (v : α) (l : List (String × α))
    (h : k' ≠ k) :
    hmLookup k' (hmUpdate k v l) = hmLookup k' l := by
  induction l with
  | nil => rfl
  | cons e rest ih =>
    obtain ⟨a, b⟩ := e
    by_cases ha : a = k
    · subst ha
      simp [hmUpdate, hmLookup, Ne.symm h]
    · simp [hmUpdate, hmLookup, ha, ih]

theorem hmLookup_hmInsert_eq {α : Type} (k : String) (v : α) (l : List (String × α)) :
    hmLookup k (hmInsert k v l) = some v := by
  induction l with
  | nil => simp [hmInsert, hmLookup]
  | cons e rest ih =>
    obtain ⟨a, b⟩ := e
    by_cases h : a = k <;> simp [hmInsert, hmLookup, h, ih]

theorem hmLookup_hmInsert_ne {α : Type} (k k' : String) (v : α) (l : List (String × α))
    (h : k' ≠ k) :
    hmLookup k' (hmInsert k v l) = hmLookup k' l := by
  induction l with
  | nil => simp [hmInsert, hmLookup, Ne.symm h]
  | cons e rest ih =>
    obtain ⟨a, b⟩ := e
    by_cases ha : a = k
    · subst ha
      simp [hmInsert, hmLookup, Ne.symm h]
    · simp [hmInsert, hmLookup, ha, ih]

theorem hmRemove_lookup_none {α : Type} (k : String) (l : List (String × α))
    (h : hmLookup k l = none) :
    hmRemove k l = (none, l) := by
  induction l with
  | nil => rfl
  | cons e rest ih =>
    obtain ⟨a, b⟩ := e
    by_cases ha : a = k
    · simp [hmLookup, ha] at h
    · simp only [hmLookup, if_neg ha] at h
      simp [hmRemove, ha, ih h]

/- ===== C2 and C3: the read task panics instead of handling the errors ===== -/

/-- C2: a read whose bytes serde_json cannot parse as a Message reaches
`serde_json::from_str(&message_str).unwrap()` in the read task, which
panics: the model of that iteration is none, not a reported error with a
graceful teardown of only this connection. -/
theorem c2_malformed_input_panics (st : ServerState) (addr : String) :
    readTaskStep st addr none = none := rfl

/-- C3: a Move that arrives when the own key is already absent from
player_map reaches `player_map_lock.get_mut(&addr_clone).unwrap()`, which
panics: the model of that iteration is none, not a silent drop. -/
theorem c3_move_after_teardown_panics (st : ServerState) (addr : String)
    (pid : Uuid) (x y : F32Bits) (h : hmLookup addr st.playerMap = none) :
    readTaskStep st addr (some (Message.move pid x y)) = none := by
  simp [readTaskStep, h]

/-- C3 witness: the panic evaluated on the empty registry. -/
theorem c3_move_after_teardown_panics_witness :
    hmLookup "a" (ServerState.mk [] []).playerMap = none ∧
    readTaskStep ⟨[], []⟩ "a" (some (Message.move ⟨0⟩ 0 0)) = none :=
  ⟨rfl, c3_move_after_teardown_panics ⟨[], []⟩ "a" ⟨0⟩ 0 0 rfl⟩

/- ===== C4: broadcast delivery ===== -/

/-- C4: broadcast_message enqueues the message onto the queue of every
registered connection whose key differs from the excluded sender and whose
channel is still alive, never onto the queue of the excluded sender, and a
dead target (whose send returns Err) is skipped silently, each target being
affected independently of the others. -/
theorem c4_broadcast_delivery (clients : List (String × ClientQueue))
    (sender_addr : String) (message : Message) (addr : String) (q : ClientQueue)
    (h : hmLookup addr clients = some q) :
    (addr ≠ sender_addr → q.isOpen = true →
      hmLookup addr (broadcast_message clients sender_addr message) =
        some ⟨q.msgs ++ [message], true⟩) ∧
    (addr = sender_addr →
      hmLookup addr (broadcast_message clients sender_addr message) = some q) ∧
    (addr ≠ sender_addr → q.isOpen = false →
      hmLookup addr (broadcast_message clients sender_addr message) = some q) := by
  refine ⟨fun hne hopen => ?_, fun heq => ?_, fun hne hdead => ?_⟩
  · rw [hmLookup_broadcast, h]
    simp [sendMsg, hne, hopen]
  · rw [hmLookup_broadcast, h]
    simp [heq]
  · rw [hmLookup_broadcast, h]
    simp [sendMsg, hne, hdead]

/-- C4 witness: one sender, one live target, one dead target. -/
theorem c4_broadcast_delivery_witness :
    hmLookup "a" [("s", ⟨[], true⟩), ("a", ⟨[], true⟩), ("b", ⟨[], false⟩)] =
      some (⟨[], true⟩ : ClientQueue) ∧
    hmLookup "a" (broadcast_message
      [("s", ⟨[], true⟩), ("a", ⟨[], true⟩), ("b", ⟨[], false⟩)] "s"
      (Message.disconnect ⟨3⟩)) = some ⟨[Message.disconnect ⟨3⟩], true⟩ ∧
    hmLookup "s" (broadcast_message
      [("s", ⟨[], true⟩), ("a", ⟨[], true⟩), ("b", ⟨[], false⟩)] "s"
      (Message.disconnect ⟨3⟩)) = some ⟨[], true⟩ ∧
    hmLookup "b" (broadcast_message
      [("s", ⟨[], true⟩), ("a", ⟨[], true⟩), ("b", ⟨[], false⟩)] "s"
      (Message.disconnect ⟨3⟩)) = some ⟨[], false⟩ := by
  refine ⟨rfl, ?_, ?_, ?_⟩
  · exact ((c4_broadcast_delivery
      [("s", ⟨[], true⟩), ("a", ⟨[], true⟩), ("b", ⟨[], false⟩)] "s"
      (Message.disconnect ⟨3⟩) "a" ⟨[], true⟩ rfl).1 (by decide) rfl)
  · exact ((c4_broadcast_delivery
      [("s", ⟨[], true⟩), ("a", ⟨[], true⟩), ("b", ⟨[], false⟩)] "s"
      (Message.disconnect ⟨3⟩) "s" ⟨[], true⟩ rfl).2.1 rfl)
  · exact ((c4_broadcast_delivery
      [("s", ⟨[], true⟩), ("a", ⟨[], true⟩), ("b", ⟨[], false⟩)] "s"
      (Message.disconnect ⟨3⟩) "b" ⟨[], false⟩ rfl).2.2 (by decide) rfl)

/- ===== C9 and C10: effect of a Move on the registry and the broadcast ===== -/

/-- C9: a Move received on a connection whose key is present rewrites only
the x and y of the own registry entry: the step succeeds, the entry at the
own address keeps its player_id, width, height and color and carries the new
coordinates, and the entry at every other key is unchanged. -/
theorem c9_move_frame_effect (st : ServerState) (addr : String) (pid : Uuid)
    (x y : F32Bits) (p : PlayerMapPlayer) (h : hmLookup addr st.playerMap = some p) :
    readTaskStep st addr (some (Message.move pid x y)) =
      some ⟨hmUpdate addr { p with x := x, y := y } st.playerMap,
            broadcast_message st.clients addr (Message.move pid x y)⟩ ∧
    hmLookup addr (hmUpdate addr { p with x := x, y := y } st.playerMap) =
      some ⟨p.player_id, x, y, p.width, p.height, p.color0, p.color1, p.color2, p.color3⟩ ∧
    ∀ k, k ≠ addr →
      hmLookup k (hmUpdate addr { p with x := x, y := y } st.playerMap) =
        hmLookup k st.playerMap := by
  refine ⟨by simp [readTaskStep, h], ?_, ?_⟩
  · rw [hmLookup_hmUpdate_eq, h]
    rfl
  · intro k hk
    exact hmLookup_hmUpdate_ne addr k _ st.playerMap hk

/-- C9 witness: a concrete two-player registry; the own entry gets the new
coordinates keeping identity, extent and color, the other entry is untouched. -/
theorem c9_move_frame_effect_witness :
    hmLookup "a" (ServerState.mk
        [("a", ⟨⟨5⟩, 1, 2, 3, 4, 5, 6, 7, 8⟩), ("b", ⟨⟨6⟩, 9, 9, 9, 9, 9, 9, 9, 9⟩)]
        []).playerMap = some ⟨⟨5⟩, 1, 2, 3, 4, 5, 6, 7, 8⟩ ∧
    readTaskStep ⟨[("a", ⟨⟨5⟩, 1, 2, 3, 4, 5, 6, 7, 8⟩), ("b", ⟨⟨6⟩, 9, 9, 9, 9, 9, 9, 9, 9⟩)], []⟩
        "a" (some (Message.move ⟨77⟩ 10 20)) =
      some ⟨hmUpdate "a" (⟨⟨5⟩, 10, 20, 3, 4, 5, 6, 7, 8⟩ : PlayerMapPlayer)
              [("a", ⟨⟨5⟩, 1, 2, 3, 4, 5, 6, 7, 8⟩), ("b", ⟨⟨6⟩, 9, 9, 9, 9, 9, 9, 9, 9⟩)],
            broadcast_message [] "a" (Message.move ⟨77⟩ 10 20)⟩ ∧
    hmLookup "a" (hmUpdate "a" (⟨⟨5⟩, 10, 20, 3, 4, 5, 6, 7, 8⟩ : PlayerMapPlayer)
        [("a", ⟨⟨5⟩, 1, 2, 3, 4, 5, 6, 7, 8⟩), ("b", ⟨⟨6⟩, 9, 9, 9, 9, 9, 9, 9, 9⟩)]) =
      some ⟨⟨5⟩, 10, 20, 3, 4, 5, 6, 7, 8⟩ ∧
    hmLookup "b" (hmUpdate "a" (⟨⟨5⟩, 10, 20, 3, 4, 5, 6, 7, 8⟩ : PlayerMapPlayer)
        [("a", ⟨⟨5⟩, 1, 2, 3, 4, 5, 6, 7, 8⟩), ("b", ⟨⟨6⟩, 9, 9, 9, 9, 9, 9, 9, 9⟩)]) =
      hmLookup "b" (ServerState.mk
        [("a", ⟨⟨5⟩, 1, 2, 3, 4, 5, 6, 7, 8⟩), ("b", ⟨⟨6⟩, 9, 9, 9, 9, 9, 9, 9, 9⟩)]
        []).playerMap := by
  have h := c9_move_frame_effect
    ⟨[("a", ⟨⟨5⟩, 1, 2, 3, 4, 5, 6, 7, 8⟩), ("b", ⟨⟨6⟩, 9, 9, 9, 9, 9, 9, 9, 9⟩)], []⟩
    "a" ⟨77⟩ 10 20 ⟨⟨5⟩, 1, 2, 3, 4, 5, 6, 7, 8⟩ rfl
  exact ⟨rfl, h.1, h.2.1, h.2.2 "b" (by decide)⟩

/-- C10: the registry write of a Move is keyed by the own connection address
regardless of the player_id carried in the message, and the broadcast to the
other live connections carries that client-supplied player_id verbatim,
with no check against the identity stored in the own entry. -/
theorem c10_move_uses_addr_and_relays_pid (st : ServerState) (addr : String)
    (pid : Uuid) (x y : F32Bits) (p : PlayerMapPlayer)
    (h : hmLookup addr st.playerMap = some p) :
    readTaskStep st addr (some (Message.move pid x y)) =
      some ⟨hmUpdate addr { p with x := x, y := y } st.playerMap,
            broadcast_message st.clients addr (Message.move pid x y)⟩ ∧
    ∀ k q, hmLookup k st.clients = some q → k ≠ addr → q.isOpen = true →
      hmLookup k (broadcast_message st.clients addr (Message.move pid x y)) =
        some ⟨q.msgs ++ [Message.move pid x y], true⟩ := by
  refine ⟨by simp [readTaskStep, h], ?_⟩
  intro k q hq hk hopen
  rw [hmLookup_broadcast, hq]
  simp [sendMsg, hk, hopen]

/-- C10 witness: the stored identity is uuid 5 but the client supplies uuid
99; the update is applied at the own address and uuid 99 is rebroadcast. -/
theorem c10_move_uses_addr_and_relays_pid_witness :
    hmLookup "a" (ServerState.mk [("a", ⟨⟨5⟩, 1, 2, 3, 4, 5, 6, 7, 8⟩)]
        [("a", ⟨[], true⟩), ("b", ⟨[], true⟩)]).playerMap =
      some ⟨⟨5⟩, 1, 2, 3, 4, 5, 6, 7, 8⟩ ∧
    readTaskStep ⟨[("a", ⟨⟨5⟩, 1, 2, 3, 4, 5, 6, 7, 8⟩)],
        [("a", ⟨[], true⟩), ("b", ⟨[], true⟩)]⟩ "a"
        (some (Message.move ⟨99⟩ 10 20)) =
      some ⟨hmUpdate "a" (⟨⟨5⟩, 10, 20, 3, 4, 5, 6, 7, 8⟩ : PlayerMapPlayer)
              [("a", ⟨⟨5⟩, 1, 2, 3, 4, 5, 6, 7, 8⟩)],
            broadcast_message [("a", ⟨[], true⟩), ("b", ⟨[], true⟩)] "a"
              (Message.move ⟨99⟩ 10 20)⟩ ∧
    hmLookup "b" (broadcast_message [("a", ⟨[], true⟩), ("b", ⟨[], true⟩)] "a"
        (Message.move ⟨99⟩ 10 20)) = some ⟨[Message.move ⟨99⟩ 10 20], true⟩ := by
  have h := c10_move_uses_addr_and_relays_pid
    ⟨[("a", ⟨⟨5⟩, 1, 2, 3, 4, 5, 6, 7, 8⟩)], [("a", ⟨[], true⟩), ("b", ⟨[], true⟩)]⟩
    "a" ⟨99⟩ 10 20 ⟨⟨5⟩, 1, 2, 3, 4, 5, 6, 7, 8⟩ rfl
  exact ⟨rfl, h.1, h.2 "b" ⟨[], true⟩ rfl (by decide) rfl⟩

/- ===== C5, C6, C7: lifecycle ordering, second teardown, insert ===== -/

/-- Whether the first occurrence of e1 in the list is followed, further
right, by an occurrence of e2: e1 happens strictly before e2. -/
def evBefore (e1 e2 : Ev) : List Ev → Bool
  | [] => false
  | e :: rest => if e = e1 then decide (e2 ∈ rest) else evBefore e1 e2 rest

/-- C5 counterexample: on a concrete state holding the departing connection
and one peer, teardown removes the registry entry strictly before queuing
the Disconnect broadcast, not after it as claimed: the emitted trace is
clientsRemoved, registryRemoved, disconnectBroadcastQueued. -/
theorem c5_counterexample :
    teardown "a" ⟨[("a", ⟨⟨7⟩, 0, 0, 0, 0, 0, 0, 0, 0⟩)],
        [("a", ⟨[], true⟩), ("b", ⟨[], true⟩)]⟩ =
      some (⟨[], [("b", ⟨[Message.disconnect ⟨7⟩], true⟩)]⟩,
        [Ev.clientsRemoved, Ev.registryRemoved, Ev.disconnectBroadcastQueued]) ∧
    evBefore Ev.disconnectBroadcastQueued Ev.registryRemoved
      [Ev.clientsRemoved, Ev.registryRemoved, Ev.disconnectBroadcastQueued] = false ∧
    evBefore Ev.registryRemoved Ev.disconnectBroadcastQueued
      [Ev.clientsRemoved, Ev.registryRemoved, Ev.disconnectBroadcastQueued] = true := by
  refine ⟨?_, by decide, by decide⟩
  rfl

/-- C5 (amended): the registry entry of a connection is created strictly
before the Connect enqueue and before the join broadcast of that connection
on the accept path, and on teardown it is removed strictly BEFORE, not
after, the Disconnect announcement is queued for broadcast. -/
theorem c5_lifecycle_ordering (addr : String) (p : PlayerMapPlayer) (st : ServerState)
    (addr2 : String) (st2 : ServerState) (pl : PlayerMapPlayer)
    (h : hmLookup addr2 st2.playerMap = some pl) :
    evBefore Ev.registryInserted Ev.connectSent (acceptSeq addr p st).2 = true ∧
    evBefore Ev.registryInserted Ev.joinBroadcastQueued (acceptSeq addr p st).2 = true ∧
    ∃ r, teardown addr2 st2 = some r ∧
      evBefore Ev.registryRemoved Ev.disconnectBroadcastQueued r.2 = true ∧
      evBefore Ev.disconnectBroadcastQueued Ev.registryRemoved r.2 = false := by
  refine ⟨rfl, rfl, ?_⟩
  refine ⟨(⟨(hmRemove addr2 st2.playerMap).2,
    broadcast_message (hmRemove addr2 st2.clients).2 addr2
      (Message.disconnect pl.player_id)⟩,
    [Ev.clientsRemoved, Ev.registryRemoved, Ev.disconnectBroadcastQueued]), ?_, rfl, rfl⟩
  simp [teardown, h]

/-- C5 witness: the lifecycle ordering evaluated on concrete states. -/
theorem c5_lifecycle_ordering_witness :
    hmLookup "a" (ServerState.mk [("a", ⟨⟨7⟩, 0, 0, 0, 0, 0, 0, 0, 0⟩)] []).playerMap =
      some ⟨⟨7⟩, 0, 0, 0, 0, 0, 0, 0, 0⟩ ∧
    evBefore Ev.registryInserted Ev.connectSent
      (acceptSeq "c" ⟨⟨9⟩, 0, 0, 0, 0, 0, 0, 0, 0⟩ ⟨[], []⟩).2 = true ∧
    ∃ r, teardown "a" ⟨[("a", ⟨⟨7⟩, 0, 0, 0, 0, 0, 0, 0, 0⟩)], []⟩ = some r ∧
      evBefore Ev.registryRemoved Ev.disconnectBroadcastQueued r.2 = true := by
  have h := c5_lifecycle_ordering "c" ⟨⟨9⟩, 0, 0, 0, 0, 0, 0, 0, 0⟩ ⟨[], []⟩
    "a" ⟨[("a", ⟨⟨7⟩, 0, 0, 0, 0, 0, 0, 0, 0⟩)], []⟩ ⟨⟨7⟩, 0, 0, 0, 0, 0, 0, 0, 0⟩ rfl
  obtain ⟨r, hr, hb, _⟩ := h.2.2
  exact ⟨rfl, h.1, r, hr, hb⟩

/-- C6 counterexample: a teardown attempt for a key that is already gone
from both maps reaches `player_map.get(&addr).unwrap()` on None and panics
(models as none); it does not run to completion without surfacing an error. -/
theorem c6_counterexample :
    teardown "a" ⟨[], []⟩ = none ∧ teardown "a" ⟨[], []⟩ ≠ some (⟨[], []⟩, []) := by
  exact ⟨rfl, by intro h; exact Option.noConfusion h⟩

/-- C6 (amended): a second teardown attempt for an already-removed key
panics at the registry lookup before reaching the broadcast, so it produces
no additional Disconnect broadcast but it does surface a panic; the
HashMap::remove operations alone, re-run on the already-removed key, are
no-ops returning nothing. -/
theorem c6_second_teardown (st : ServerState) (addr : String)
    (h1 : hmLookup addr st.playerMap = none) (h2 : hmLookup addr st.clients = none) :
    teardown addr st = none ∧
    hmRemove addr st.playerMap = (none, st.playerMap) ∧
    hmRemove addr st.clients = (none, st.clients) := by
  refine ⟨?_, hmRemove_lookup_none addr st.playerMap h1,
    hmRemove_lookup_none addr st.clients h2⟩
  simp [teardown, h1]

/-- C6 witness: the second teardown evaluated on the empty state. -/
theorem c6_second_teardown_witness :
    hmLookup "a" (ServerState.mk [] []).playerMap = none ∧
    hmLookup "a" (ServerState.mk [] []).clients = none ∧
    teardown "a" ⟨[], []⟩ = none ∧
    hmRemove "a" (ServerState.mk [] []).playerMap = (none, []) ∧
    hmRemove "a" (ServerState.mk [] []).clients = (none, []) := by
  have h := c6_second_teardown ⟨[], []⟩ "a" rfl rfl
  exact ⟨rfl, rfl, h.1, h.2.1, h.2.2⟩

/-- C7 counterexample: inserting at a key that is already present does not
fail and does not leave the existing entry unchanged: HashMap::insert (the
operation the accept loop uses on player_map and clients, with no
presence check) silently replaces the stored player 1 with player 2. -/
theorem c7_counterexample :
    hmInsert "a" (⟨⟨2⟩, 0, 0, 0, 0, 0, 0, 0, 0⟩ : PlayerMapPlayer)
        [("a", ⟨⟨1⟩, 0, 0, 0, 0, 0, 0, 0, 0⟩)] =
      [("a", ⟨⟨2⟩, 0, 0, 0, 0, 0, 0, 0, 0⟩)] ∧
    hmLookup "a" (hmInsert "a" (⟨⟨2⟩, 0, 0, 0, 0, 0, 0, 0, 0⟩ : PlayerMapPlayer)
        [("a", ⟨⟨1⟩, 0, 0, 0, 0, 0, 0, 0, 0⟩)]) ≠
      some ⟨⟨1⟩, 0, 0, 0, 0, 0, 0, 0, 0⟩ := by
  exact ⟨rfl, by decide⟩

/-- C7 (amended): the registry insert performs no duplicate-key check and
never fails: inserting at an already-present key replaces the stored entry
with the new one, and every other key keeps its binding. -/
theorem c7_insert_replaces (k : String) (v : PlayerMapPlayer)
    (m : List (String × PlayerMapPlayer)) :
    hmLookup k (hmInsert k v m) = some v ∧
    ∀ k2, k2 ≠ k → hmLookup k2 (hmInsert k v m) = hmLookup k2 m :=
  ⟨hmLookup_hmInsert_eq k v m, fun k2 hk2 => hmLookup_hmInsert_ne k k2 v m hk2⟩

/-- C7 witness: the replacing insert evaluated on a concrete registry. -/
theorem c7_insert_replaces_witness :
    hmLookup "a" (hmInsert "a" (⟨⟨2⟩, 0, 0, 0, 0, 0, 0, 0, 0⟩ : PlayerMapPlayer)
        [("a", ⟨⟨1⟩, 0, 0, 0, 0, 0, 0, 0, 0⟩), ("b", ⟨⟨3⟩, 0, 0, 0, 0, 0, 0, 0, 0⟩)]) =
      some ⟨⟨2⟩, 0, 0, 0, 0, 0, 0, 0, 0⟩ ∧
    hmLookup "b" (hmInsert "a" (⟨⟨2⟩, 0, 0, 0, 0, 0, 0, 0, 0⟩ : PlayerMapPlayer)
        [("a", ⟨⟨1⟩, 0, 0, 0, 0, 0, 0, 0, 0⟩), ("b", ⟨⟨3⟩, 0, 0, 0, 0, 0, 0, 0, 0⟩)]) =
      hmLookup "b" [("a", (⟨⟨1⟩, 0, 0, 0, 0, 0, 0, 0, 0⟩ : PlayerMapPlayer)),
        ("b", ⟨⟨3⟩, 0, 0, 0, 0, 0, 0, 0, 0⟩)] := by
  have h := c7_insert_replaces "a" ⟨⟨2⟩, 0, 0, 0, 0, 0, 0, 0, 0⟩
    [("a", ⟨⟨1⟩, 0, 0, 0, 0, 0, 0, 0, 0⟩), ("b", ⟨⟨3⟩, 0, 0, 0, 0, 0, 0, 0, 0⟩)]
  exact ⟨h.1, h.2 "b" (by decide)⟩

/- ===== C8: Connect ordering for a newcomer ===== -/

/-- C8 counterexample: the history register, concurrent broadcast, Connect
enqueue, join broadcast is a valid interleaving (the accept-path steps occur
in program order), and in it the newcomer queue receives a Move about
another player strictly before its own Connect, because the queue becomes a
broadcast target at registration, which precedes the Connect enqueue. -/
theorem c8_counterexample :
    validTrace [Act.acc .register, Act.envBroadcast, Act.acc .sendConnect,
      Act.acc .broadcastJoin] ∧
    runAccept ⟨0⟩ (Message.move ⟨1⟩ 0 0)
      [Act.acc .register, Act.envBroadcast, Act.acc .sendConnect, Act.acc .broadcastJoin] =
      ⟨true, [Message.move ⟨1⟩ 0 0, Message.connect ⟨0⟩]⟩ := by
  exact ⟨rfl, rfl⟩

/-- A history without environment actions is exactly the image of its
accept-path projection. -/
theorem pure_trace (tr : List Act) (h : ∀ a ∈ tr, a ≠ Act.envBroadcast) :
    tr = (tr.filterMap projAccept).map Act.acc := by
  induction tr with
  | nil => rfl
  | cons a rest ih =>
    cases a with
    | acc s =>
      simp only [List.filterMap_cons, projAccept, List.map_cons]
      exact congrArg _ (ih (fun b hb => h b (List.mem_cons_of_mem _ hb)))
    | envBroadcast => exact absurd rfl (h _ (List.mem_cons_self _ _))

/-- C8 (amended): on the accept path the queue registration precedes the
Connect enqueue, which precedes the join broadcast; hence in every valid
history in which no concurrent broadcast interleaves, the newcomer ends
registered with its own Connect as the only (and first) message. A
concurrent broadcast can, however, be enqueued between registration and the
Connect enqueue, so Connect-first is not guaranteed in general. -/
theorem c8_connect_first_when_quiet (uid : Uuid) (envMsg : Message) (tr : List Act)
    (hv : validTrace tr) (hq : Act.envBroadcast ∉ tr) :
    runAccept uid envMsg tr = ⟨true, [Message.connect uid]⟩ := by
  have h : ∀ a ∈ tr, a ≠ Act.envBroadcast := by
    intro a ha hcontra
    exact hq (hcontra ▸ ha)
  rw [pure_trace tr h, show tr.filterMap projAccept = acceptProgram from hv]
  rfl

/-- C8 witness: the quiet history evaluated concretely. -/
theorem c8_connect_first_when_quiet_witness :
    validTrace [Act.acc .register, Act.acc .sendConnect, Act.acc .broadcastJoin] ∧
    Act.envBroadcast ∉ [Act.acc AcceptAct.register, Act.acc .sendConnect,
      Act.acc .broadcastJoin] ∧
    runAccept ⟨0⟩ (Message.move ⟨1⟩ 0 0)
      [Act.acc .register, Act.acc .sendConnect, Act.acc .broadcastJoin] =
      ⟨true, [Message.connect ⟨0⟩]⟩ :=
  ⟨rfl, by decide,
    c8_connect_first_when_quiet ⟨0⟩ (Message.move ⟨1⟩ 0 0)
      [Act.acc .register, Act.acc .sendConnect, Act.acc .broadcastJoin] rfl (by decide)⟩
